import Mathlib

/-!
Shallow embedding of `arthur/jobs.py`: the Perceval job wrapper
(`PercevalJob.run`, the `metadata` tagging decorator) and the bounded
retry orchestrator (`execute_perceval_job`).

Conventions used by the embedding:

* Python dict values appearing in a backend argument bag are modelled by
  `Value`; an argument bag (`Args`) is an association list with
  last-write-wins update (`argsSet`) and `find?`-based lookup
  (`argsLookup`), matching dict update and read semantics.
* Python object identity of dicts is made observable through a store
  (`Store`) of bags addressed by natural-number references, so that
  `args = backend_args.copy()` (a fresh allocation) is distinguishable
  from mutation of the caller's bag.
* `updated_on` timestamps and item offsets are integers (Python floats
  and ints under comparison and truthiness); the truthiness test of a
  possibly-absent number, as in `if not self.result.max_date`, is
  `truthyOptInt` and is false both for `None` and for `0`.  Likewise
  `truthyOptStr` is false for `None` and for the empty string.
* Exceptions are `Exc`: the `AttributeError` class (caught and re-raised
  separately by the orchestrator) is distinguished from every other
  exception class.
* A backend's behaviour on attempt `k` is an arbitrary function
  `production k = (items, err)`: the items yielded before the attempt
  ends and the exception that ended it, if any.  `cache.recover()` is
  likewise modelled by `recover_err`: the exception it raises, if any.
-/

namespace Arthur

/-- Values stored in a backend argument bag (Python dict values): plain
strings and integers, the datetime produced by `unixtime_to_datetime`,
and the cache handle (or `None`) written by `args['cache'] = self.cache`. -/
inductive Value where
  | str (s : String)
  | int (n : Int)
  | date (t : Int)
  | cacheRef (c : Option Unit)
  deriving DecidableEq

/-- A backend argument bag: a Python dict from string keys to values. -/
abbrev Args := List (String × Value)

/-- Dict update `a[k] = v`: the new binding shadows any older binding
for `k`, so a lookup always returns the last write. -/
def argsSet (a : Args) (k : String) (v : Value) : Args :=
  (k, v) :: a

/-- Dict read `a.get(k)`: the newest binding for `k`, if any. -/
def argsLookup (a : Args) (k : String) : Option Value :=
  (a.find? (fun p => p.1 == k)).map Prod.snd

/-- A store of argument bags addressed by references, modelling Python
dict object identity: `copy()` allocates a fresh reference. -/
abbrev Store := List Args

/-- Read the bag at reference `r`. -/
def storeRead (σ : Store) (r : Nat) : Args := σ[r]?.getD []

/-- Overwrite the bag at reference `r` (no-op when `r` is dangling). -/
def storeWrite (σ : Store) (r : Nat) (a : Args) : Store := σ.set r a

/-- Perform `σ[r][k] = v`: a keyed update of the bag at reference `r`. -/
def storeSetKey (σ : Store) (r : Nat) (k : String) (v : Value) : Store :=
  storeWrite σ r (argsSet (storeRead σ r) k v)

/-- One Perceval item: a dict with at least `uuid` and `updated_on`,
optionally `offset`; `payload` stands for all remaining fields.  The
`arthur_version` and `job_id` fields are absent until the `metadata`
decorator adds them. -/
structure Item where
  uuid : String
  updated_on : Int
  offset : Option Int
  payload : String
  arthur_version : Option String := none
  job_id : Option String := none
  deriving DecidableEq

/-- Python truthiness of a possibly-absent number: `None` and `0` are
falsy, every other value is truthy. -/
def truthyOptInt : Option Int → Bool
  | none => false
  | some v => v != 0

/-- Python truthiness of a possibly-absent string: `None` and `""` are
falsy. -/
def truthyOptStr : Option String → Bool
  | none => false
  | some s => s != ""

/-- The mutable result of a Perceval job (`JobResult` in `jobs.py`). -/
structure JobResult where
  job_id : String
  task_id : String
  backend : String
  last_uuid : Option String
  max_date : Option Int
  nitems : Nat
  offset : Option Int
  nresumed : Nat
  deriving DecidableEq

/-- A fresh `JobResult(job_id, task_id, backend, None, None, 0,
offset=None, nresumed=0)`. -/
def freshResult (jobId taskId backend : String) : JobResult :=
  { job_id := jobId, task_id := taskId, backend := backend,
    last_uuid := none, max_date := none, nitems := 0,
    offset := none, nresumed := 0 }

/-- Exceptions raised during a run.  `attrError` is the
`AttributeError` class (non-retryable: parameter-binding failures and
the cache-precondition error); `exc` is every other exception class. -/
inductive Exc where
  | attrError (msg : String)
  | exc (msg : String)
  deriving DecidableEq

/-- Whether an exception is of the `AttributeError` class. -/
def Exc.isAttr : Exc → Bool
  | .attrError _ => true
  | .exc _ => false

/-- The tagging performed on one item by the `metadata` decorator:
`item['arthur_version'] = __version__; item['job_id'] = self.job_id`.
All other fields of the item are untouched. -/
def tagItem (version jobId : String) (it : Item) : Item :=
  { it with arthur_version := some version, job_id := some jobId }

/-- The `metadata` decorator applied to a produced item sequence: each
item is tagged, in production order, before being yielded. -/
def metadata (version jobId : String) (items : List Item) : List Item :=
  items.map (tagItem version jobId)

/-- The per-item body of the loop in `PercevalJob.run` (jobs.py lines
169-175): increment `nitems`, record `last_uuid`, raise `max_date` when
the current value is falsy (`None` or `0`) or strictly smaller than the
item's `updated_on`, and overwrite `offset` whenever the item carries an
`offset` key. -/
def processItem (r : JobResult) (it : Item) : JobResult :=
  { r with
    nitems := r.nitems + 1
    last_uuid := some it.uuid
    max_date :=
      match r.max_date with
      | none => some it.updated_on
      | some v => if v = 0 ∨ v < it.updated_on then some it.updated_on else some v
    offset :=
      match it.offset with
      | some o => some o
      | none => r.offset }

/-- The argument preparation performed by `PercevalJob.run` (jobs.py
lines 152-164) at dict-store level: copy the caller's bag into a fresh
reference, write the cache handle, and, on resume, write `from_date`
when `self.result.max_date` is truthy and `offset` when
`self.result.offset` is truthy, then bump `nresumed`; a non-resuming run
resets the result instead.  Returns the updated store, the reference of
the fresh bag, and the job result after the reset or resume step. -/
def run_prepare_args (σ : Store) (bargs : Nat) (cache : Option Unit)
    (res : JobResult) (resume : Bool) : Store × Nat × JobResult :=
  let args : Nat := σ.length
  let σ1 : Store := σ ++ [storeRead σ bargs]
  let σ2 : Store := storeSetKey σ1 args "cache" (Value.cacheRef cache)
  match resume with
  | false =>
    (σ2, args, freshResult res.job_id res.task_id res.backend)
  | true =>
    let σ3 : Store :=
      match res.max_date with
      | some t => if t ≠ 0 then storeSetKey σ2 args "from_date" (Value.date t) else σ2
      | none => σ2
    let σ4 : Store :=
      match res.offset with
      | some o => if o ≠ 0 then storeSetKey σ3 args "offset" (Value.int o) else σ3
      | none => σ3
    (σ4, args, { res with nresumed := res.nresumed + 1 })

/-- Everything observable about one call to `PercevalJob.run`: the job
result when the call returns or raises, the items pushed to the output
queue (in order), the final dict store with the reference of the merged
argument bag, and the exception that ended the run, if any. -/
structure RunOutput where
  result : JobResult
  pushed : List Item
  store : Store
  argsRef : Nat
  error : Option Exc
  deriving DecidableEq

/-- One call to `PercevalJob.run` (jobs.py lines 131-175).  `σ`/`bargs`
locate the caller's `backend_args` dict; `cache` is `self.cache`; `res`
is the job result before the call; `items`/`err` describe the backend's
production for this attempt (`_execute` yields the `metadata`-tagged
items, then the attempt ends, exceptionally when `err` is set).  Every
yielded item is pushed to the queue and folded into the result before
the exception, if any, escapes. -/
def PercevalJob.run (version : String) (σ : Store) (bargs : Nat)
    (cache : Option Unit) (res : JobResult) (resume : Bool)
    (_fetch_from_cache : Bool) (items : List Item) (err : Option Exc) :
    RunOutput :=
  let p := run_prepare_args σ bargs cache res resume
  let tagged := metadata version res.job_id items
  { result := tagged.foldl processItem p.2.2
    pushed := tagged
    store := p.1
    argsRef := p.2.1
    error := err }

/-- The configuration of one `execute_perceval_job` invocation, together
with the behaviour of its external collaborators: the backend's
capability flags, its per-attempt production, and whether
`cache.recover()` raises. -/
structure OrchCfg where
  job_id : String
  task_id : String
  backend : String
  version : String
  has_caching : Bool
  has_resuming : Bool
  cache_path : Option String
  fetch_from_cache : Bool
  max_retries : Int
  backend_args : Args
  production : Nat → List Item × Option Exc
  recover_err : Option Exc

/-- The observable outcome of `execute_perceval_job`: how many times
`job.run` was called, and either the final `JobResult` or the exception
that escaped. -/
structure ExecOutcome where
  runCalls : Nat
  result : Except Exc JobResult

/-- The `while run_job` retry loop of `execute_perceval_job` (jobs.py
lines 310-339).  `k` counts the `run` calls already made (equal to the
`failures` counter on entry of each iteration), `cacheOn` tracks whether
`job.cache` is still set, `res` is the job's current result and `resume`
the flag for the next `run` call.  On a failure that is not an
`AttributeError`: `failures` is incremented; when `cache_path` is truthy
and `fetch_from_cache` is false, `job.recover_cache()` runs (raising
`recover_err`, if set, when a cache is still attached) and `job.cache`
is dropped; then the job aborts re-raising the error when the backend
cannot resume or `failures >= max_retries`, and otherwise retries with
`resume = True`. -/
def execLoop (cfg : OrchCfg) (σ : Store) (k : Nat) (cacheOn : Bool)
    (res : JobResult) (resume : Bool) : ExecOutcome :=
  let pr := cfg.production k
  let out := PercevalJob.run cfg.version σ 0
      (if cacheOn then some () else none) res resume
      cfg.fetch_from_cache pr.1 pr.2
  match pr.2 with
  | none => { runCalls := k + 1, result := .ok out.result }
  | some e =>
    if e.isAttr then { runCalls := k + 1, result := .error e }
    else
      let doRec := truthyOptStr cfg.cache_path && !cfg.fetch_from_cache
      if doRec && cacheOn && cfg.recover_err.isSome then
        { runCalls := k + 1, result := .error (cfg.recover_err.getD e) }
      else
        let cacheOn2 := if doRec then false else cacheOn
        if h : cfg.has_resuming = false ∨ cfg.max_retries ≤ (k : Int) + 1 then
          { runCalls := k + 1, result := .error e }
        else
          execLoop cfg out.store (k + 1) cacheOn2 out.result true
termination_by (cfg.max_retries - (k : Int)).toNat
decreasing_by
  obtain ⟨h1, h2⟩ := not_or.mp h
  omega

/-- The orchestrator `execute_perceval_job` (jobs.py lines 267-346):
raise `AttributeError` at once when caching is unsupported but a cache
path or the fetch-from-cache flag was requested; otherwise initialize
the cache when a truthy path is given and enter the retry loop with a
fresh job result and `resume = False`. -/
def execute_perceval_job (cfg : OrchCfg) : ExecOutcome :=
  if cfg.has_caching = false ∧
      (truthyOptStr cfg.cache_path = true ∨ cfg.fetch_from_cache = true) then
    { runCalls := 0,
      result := .error
        (Exc.attrError "cache attributes set but cache is not supported") }
  else
    execLoop cfg [cfg.backend_args] 0 (truthyOptStr cfg.cache_path)
      (freshResult cfg.job_id cfg.task_id cfg.backend) false

/-- Fold step for the maximum of an optional running maximum and one
more value. -/
def optMax (a : Option Int) (t : Int) : Option Int :=
  match a with
  | none => some t
  | some p => some (max p t)

/-- Maximum of an optional starting value and a list of values, `none`
only when both are absent. -/
def listOptMax (a : Option Int) (ts : List Int) : Option Int :=
  ts.foldl optMax a

/-- A sample item carrying timestamp `0`. -/
def itemT0 : Item :=
  { uuid := "a", updated_on := 0, offset := none, payload := "p0" }

/-- A sample item carrying the negative timestamp `-1` (a pre-epoch
`updated_on`). -/
def itemTneg : Item :=
  { uuid := "b", updated_on := -1, offset := none, payload := "p1" }

/-- A baseline orchestrator configuration: resuming and caching
supported, no cache path, every attempt failing with a transient
(non-`AttributeError`) exception. -/
def baseCfg : OrchCfg :=
  { job_id := "job1", task_id := "task1", backend := "git",
    version := "0.1.0", has_caching := true, has_resuming := true,
    cache_path := none, fetch_from_cache := false, max_retries := 3,
    backend_args := [], production := fun _ => ([], some (Exc.exc "boom")),
    recover_err := none }

/-- A configuration requesting fetch-from-cache against a backend that
does not support caching. -/
def c4cfg : OrchCfg :=
  { baseCfg with has_caching := false, fetch_from_cache := true }

/-- A configuration with a writable cache whose `recover()` raises,
while the first run attempt fails with a transient error. -/
def c5cfg : OrchCfg :=
  { baseCfg with
    cache_path := some "/tmp/cache"
    max_retries := 5
    recover_err := some (Exc.exc "recover failed") }

/-- A configuration whose backend raises an `AttributeError`
(parameter-binding failure) on every attempt. -/
def c6cfg : OrchCfg :=
  { baseCfg with
    production := fun _ => ([], some (Exc.attrError "missing arg")) }

/-- A configuration whose backend does not support resuming and fails
with a transient error, with a large retry budget. -/
def c7cfg : OrchCfg :=
  { baseCfg with has_resuming := false, max_retries := 100 }

/-- A configuration with a zero retry budget whose backend succeeds with
no items. -/
def c10cfg : OrchCfg :=
  { baseCfg with max_retries := 0, production := fun _ => ([], none) }

/-- Pure view of the argument bag that `run_prepare_args` leaves at the
freshly allocated reference: the caller's bag with `cache` written, and,
on resume, `from_date` when `self.result.max_date` is truthy and
`offset` when `self.result.offset` is truthy. -/
def mergedArgs (a : Args) (cache : Option Unit) (res : JobResult)
    (resume : Bool) : Args :=
  let a1 := argsSet a "cache" (Value.cacheRef cache)
  match resume with
  | false => a1
  | true =>
    let a2 :=
      match res.max_date with
      | some t => if t ≠ 0 then argsSet a1 "from_date" (Value.date t) else a1
      | none => a1
    match res.offset with
    | some o => if o ≠ 0 then argsSet a2 "offset" (Value.int o) else a2
    | none => a2

/-- A prior job result that recorded `max_timestamp = 0` and
`offset = 0` (both reachable: an item with `updated_on = 0`, an item
carrying `offset = 0`). -/
def resZero : JobResult :=
  { freshResult "job1" "task1" "git" with max_date := some 0, offset := some 0 }

/-- A prior job result that recorded `max_timestamp = 5` and
`offset = 7`. -/
def resFive : JobResult :=
  { freshResult "job1" "task1" "git" with max_date := some 5, offset := some 7 }

/-! Helper lemmas about `processItem` and the maximum fold. -/

lemma processItem_max_date (r : JobResult) (it : Item)
    (hr : ∀ p, r.max_date = some p → 0 ≤ p) (ht : 0 ≤ it.updated_on) :
    (processItem r it).max_date = optMax r.max_date it.updated_on := by
  cases hmd : r.max_date with
  | none => simp [processItem, optMax, hmd]
  | some p =>
    have hp : 0 ≤ p := hr p hmd
    by_cases h : p = 0 ∨ p < it.updated_on
    · have hmax : max p it.updated_on = it.updated_on := by
        rcases h with h | h
        · exact max_eq_right (h ▸ ht)
        · exact max_eq_right (le_of_lt h)
      simp [processItem, optMax, hmd, h, hmax]
    · push_neg at h
      have hmax : max p it.updated_on = p := max_eq_left h.2
      simp [processItem, optMax, hmd, h.1, h.2, not_lt.mpr h.2, hmax]

lemma processItem_max_date_nonneg (r : JobResult) (it : Item)
    (hr : ∀ p, r.max_date = some p → 0 ≤ p) (ht : 0 ≤ it.updated_on) :
    ∀ p, (processItem r it).max_date = some p → 0 ≤ p := by
  intro p hp
  rw [processItem_max_date r it hr ht] at hp
  cases hmd : r.max_date with
  | none => rw [hmd] at hp; simp [optMax] at hp; omega
  | some v =>
    have hv := hr v hmd
    rw [hmd] at hp
    simp [optMax] at hp
    subst hp
    exact le_trans hv (le_max_left v it.updated_on)

lemma foldl_processItem_max_date (items : List Item) :
    ∀ r : JobResult, (∀ p, r.max_date = some p → 0 ≤ p) →
      (∀ it ∈ items, 0 ≤ it.updated_on) →
      (items.foldl processItem r).max_date
        = listOptMax r.max_date (items.map Item.updated_on) := by
  induction items with
  | nil => intro r _ _; simp [listOptMax]
  | cons it rest ih =>
    intro r hr hts
    have ht : 0 ≤ it.updated_on := hts it (by simp)
    have hrest : ∀ x ∈ rest, 0 ≤ x.updated_on := fun x hx => hts x (by simp [hx])
    have hinv := processItem_max_date_nonneg r it hr ht
    calc (List.foldl processItem r (it :: rest)).max_date
        = (rest.foldl processItem (processItem r it)).max_date := by simp
      _ = listOptMax (processItem r it).max_date (rest.map Item.updated_on) :=
          ih _ hinv hrest
      _ = listOptMax (optMax r.max_date it.updated_on) (rest.map Item.updated_on) := by
          rw [processItem_max_date r it hr ht]
      _ = listOptMax r.max_date ((it :: rest).map Item.updated_on) := by
          simp [listOptMax]

lemma le_listOptMax (ts : List Int) :
    ∀ p : Int, ∃ q, listOptMax (some p) ts = some q ∧ p ≤ q := by
  induction ts with
  | nil => intro p; exact ⟨p, rfl, le_refl p⟩
  | cons t ts ih =>
    intro p
    obtain ⟨q, hq, hle⟩ := ih (max p t)
    exact ⟨q, by simpa [listOptMax, optMax] using hq,
      le_trans (le_max_left p t) hle⟩

lemma metadata_map_updated_on (v j : String) (items : List Item) :
    (metadata v j items).map Item.updated_on = items.map Item.updated_on := by
  simp [metadata, tagItem, List.map_map, Function.comp]

lemma run_prepare_args_result_max_date (σ : Store) (bargs : Nat)
    (cache : Option Unit) (res : JobResult) (resume : Bool) :
    ((run_prepare_args σ bargs cache res resume).2.2).max_date
      = if resume then res.max_date else none := by
  cases resume <;> simp [run_prepare_args, freshResult]

/-- C8: every item delivered to the output queue by `PercevalJob.run` is
exactly the corresponding produced item tagged by the `metadata`
decorator, in the same order and count, with `job_id` equal to the job's
id and `arthur_version` equal to the running system version, and with
every other field of the item unchanged. -/
theorem run_metadata_tagging (version : String) (σ : Store) (bargs : Nat)
    (cache : Option Unit) (res : JobResult) (resume ffc : Bool)
    (items : List Item) (err : Option Exc) :
    (PercevalJob.run version σ bargs cache res resume ffc items err).pushed
        = metadata version res.job_id items
      ∧ (metadata version res.job_id items).length = items.length
      ∧ (∀ i : Nat, (metadata version res.job_id items)[i]?
          = (items[i]?).map (tagItem version res.job_id))
      ∧ ∀ it : Item,
          (tagItem version res.job_id it).job_id = some res.job_id
        ∧ (tagItem version res.job_id it).arthur_version = some version
        ∧ (tagItem version res.job_id it).uuid = it.uuid
        ∧ (tagItem version res.job_id it).updated_on = it.updated_on
        ∧ (tagItem version res.job_id it).offset = it.offset
        ∧ (tagItem version res.job_id it).payload = it.payload := by
  refine ⟨rfl, by simp [metadata], ?_, ?_⟩
  · intro i
    simp [metadata]
  · intro it
    exact ⟨rfl, rfl, rfl, rfl, rfl, rfl⟩

/-- C2 counterexample: in a fresh (non-resuming) run processing items
with timestamps `0` and `-1`, the code leaves `max_date = -1`, while the
maximum of the processed timestamps is `0`; `max_timestamp` decreased
from `0` to `-1` during item processing, so the claim as stated is
false.  The truthiness test `if not self.result.max_date` treats the
recorded value `0` as absent. -/
theorem run_max_date_counterexample :
    (PercevalJob.run "0.1.0" [[]] 0 none (freshResult "job1" "task1" "git")
        false false [itemT0, itemTneg] none).result.max_date = some (-1)
      ∧ listOptMax none ([itemT0, itemTneg].map Item.updated_on) = some 0
      ∧ some (-1 : Int) ≠ some (0 : Int) := by
  refine ⟨by decide, by decide, by decide⟩

/-- C2 (amended): provided the previously recorded `max_timestamp` and
every processed timestamp are non-negative, a run that processes items
with timestamps `t1..tn` (any order, from any prior record state) leaves
`max_timestamp` equal to the maximum of the previously recorded value
(when resuming; a non-resuming run resets the record first) and
`t1..tn`; in particular `max_timestamp` never decreases. -/
theorem run_max_date_is_max (version : String) (σ : Store) (bargs : Nat)
    (cache : Option Unit) (res : JobResult) (resume ffc : Bool)
    (items : List Item) (err : Option Exc)
    (hres : ∀ p, res.max_date = some p → 0 ≤ p)
    (hit : ∀ it ∈ items, 0 ≤ it.updated_on) :
    (PercevalJob.run version σ bargs cache res resume ffc items err).result.max_date
        = listOptMax (if resume then res.max_date else none)
            (items.map Item.updated_on)
      ∧ ∀ p, resume = true → res.max_date = some p →
          ∃ q, (PercevalJob.run version σ bargs cache res resume ffc items
            err).result.max_date = some q ∧ p ≤ q := by
  have hstart : ∀ p,
      ((run_prepare_args σ bargs cache res resume).2.2).max_date = some p → 0 ≤ p := by
    intro p hp
    rw [run_prepare_args_result_max_date] at hp
    cases resume with
    | false => simp at hp
    | true => exact hres p (by simpa using hp)
  have htag : ∀ it ∈ metadata version res.job_id items, 0 ≤ it.updated_on := by
    intro it hmem
    simp only [metadata, List.mem_map] at hmem
    obtain ⟨x, hx, rfl⟩ := hmem
    simpa [tagItem] using hit x hx
  have hkey : (PercevalJob.run version σ bargs cache res resume ffc items
      err).result.max_date
      = listOptMax (if resume then res.max_date else none)
          (items.map Item.updated_on) := by
    simp only [PercevalJob.run]
    rw [foldl_processItem_max_date _ _ hstart htag, metadata_map_updated_on,
      run_prepare_args_result_max_date]
  refine ⟨hkey, ?_⟩
  intro p hrt hmd
  rw [hkey, hrt, hmd]
  simpa using le_listOptMax (items.map Item.updated_on) p

/-- C2 witness: a resumed run starting from a recorded maximum of `5`
over items with timestamps `7` then `3` ends with `max_timestamp = 7`,
as computed by the amended theorem. -/
theorem run_max_date_is_max_witness :
    (PercevalJob.run "0.1.0" [[]] 0 none
        { freshResult "job1" "task1" "git" with max_date := some 5 } true false
        [{ uuid := "a", updated_on := 7, offset := none, payload := "x" },
         { uuid := "b", updated_on := 3, offset := none, payload := "y" }]
        none).result.max_date
      = listOptMax (some 5) [7, 3] := by
  have h := run_max_date_is_max "0.1.0" [[]] 0 none
      { freshResult "job1" "task1" "git" with max_date := some 5 } true false
      [{ uuid := "a", updated_on := 7, offset := none, payload := "x" },
       { uuid := "b", updated_on := 3, offset := none, payload := "y" }]
      none (by intro p hp; simp [freshResult] at hp; omega)
      (by intro it hmem; fin_cases hmem <;> decide)
  simpa using h.1

/-! Helper lemmas about the dict store and argument bags. -/

lemma argsLookup_set_self (a : Args) (k : String) (v : Value) :
    argsLookup (argsSet a k v) k = some v := by
  simp [argsLookup, argsSet]

lemma argsLookup_set_ne (a : Args) (k k2 : String) (v : Value) (h : k2 ≠ k) :
    argsLookup (argsSet a k v) k2 = argsLookup a k2 := by
  have hp : (((k, v) : String × Value).1 == k2) = false := by
    simp only [beq_eq_false_iff_ne, ne_eq]
    exact fun hh => h hh.symm
  simp only [argsLookup, argsSet, List.find?_cons, hp]

lemma storeSetKey_length (σ : Store) (r : Nat) (k : String) (v : Value) :
    (storeSetKey σ r k v).length = σ.length := by
  simp [storeSetKey, storeWrite]

lemma storeRead_append_left (σ : Store) (a : Args) (r : Nat)
    (h : r < σ.length) : storeRead (σ ++ [a]) r = storeRead σ r := by
  simp only [storeRead]
  rw [List.getElem?_append]
  simp [h]

lemma storeRead_concat_self (σ : Store) (a : Args) :
    storeRead (σ ++ [a]) σ.length = a := by
  simp [storeRead, List.getElem?_concat_length]

lemma storeRead_setKey_self (σ : Store) (r : Nat) (k : String) (v : Value)
    (h : r < σ.length) :
    storeRead (storeSetKey σ r k v) r = argsSet (storeRead σ r) k v := by
  simp only [storeSetKey, storeWrite, storeRead]
  rw [List.getElem?_set_eq_of_lt _ h]
  rfl

lemma storeRead_setKey_ne (σ : Store) (r r2 : Nat) (k : String) (v : Value)
    (h : r2 ≠ r) : storeRead (storeSetKey σ r k v) r2 = storeRead σ r2 := by
  simp only [storeSetKey, storeWrite, storeRead]
  rw [List.getElem?_set_ne (fun hh => h hh.symm)]

lemma run_prepare_args_read (σ : Store) (bargs : Nat) (cache : Option Unit)
    (res : JobResult) (resume : Bool) :
    storeRead (run_prepare_args σ bargs cache res resume).1
        (run_prepare_args σ bargs cache res resume).2.1
      = mergedArgs (storeRead σ bargs) cache res resume := by
  have hL : σ.length < (σ ++ [storeRead σ bargs]).length := by simp
  have hL2 : ∀ k v, σ.length <
      (storeSetKey (σ ++ [storeRead σ bargs]) σ.length k v).length := by
    intro k v
    simpa [storeSetKey_length] using hL
  have hL3 : ∀ k v k2 v2, σ.length <
      (storeSetKey (storeSetKey (σ ++ [storeRead σ bargs]) σ.length k v)
        σ.length k2 v2).length := by
    intro k v k2 v2
    simpa [storeSetKey_length] using hL
  cases resume with
  | false =>
    simp only [run_prepare_args, mergedArgs]
    rw [storeRead_setKey_self _ _ _ _ hL, storeRead_concat_self]
  | true =>
    simp only [run_prepare_args, mergedArgs]
    rcases hmd : res.max_date with _ | t <;> rcases hoff : res.offset with _ | o <;>
      simp only [hmd, hoff]
    · rw [storeRead_setKey_self _ _ _ _ hL, storeRead_concat_self]
    · by_cases ho : o ≠ 0
      · simp only [if_pos ho]
        rw [storeRead_setKey_self _ _ _ _ (hL2 _ _),
          storeRead_setKey_self _ _ _ _ hL, storeRead_concat_self]
      · simp only [if_neg ho]
        rw [storeRead_setKey_self _ _ _ _ hL, storeRead_concat_self]
    · by_cases ht : t ≠ 0
      · simp only [if_pos ht]
        rw [storeRead_setKey_self _ _ _ _ (hL2 _ _),
          storeRead_setKey_self _ _ _ _ hL, storeRead_concat_self]
      · simp only [if_neg ht]
        rw [storeRead_setKey_self _ _ _ _ hL, storeRead_concat_self]
    · by_cases ht : t ≠ 0 <;> by_cases ho : o ≠ 0
      · simp only [if_pos ht, if_pos ho]
        rw [storeRead_setKey_self _ _ _ _ (hL3 _ _ _ _),
          storeRead_setKey_self _ _ _ _ (hL2 _ _),
          storeRead_setKey_self _ _ _ _ hL, storeRead_concat_self]
      · simp only [if_pos ht, if_neg ho]
        rw [storeRead_setKey_self _ _ _ _ (hL2 _ _),
          storeRead_setKey_self _ _ _ _ hL, storeRead_concat_self]
      · simp only [if_neg ht, if_pos ho]
        rw [storeRead_setKey_self _ _ _ _ (hL2 _ _),
          storeRead_setKey_self _ _ _ _ hL, storeRead_concat_self]
      · simp only [if_neg ht, if_neg ho]
        rw [storeRead_setKey_self _ _ _ _ hL, storeRead_concat_self]

lemma run_prepare_args_store_frame (σ : Store) (bargs : Nat)
    (cache : Option Unit) (res : JobResult) (resume : Bool) (r : Nat)
    (h : r < σ.length) :
    storeRead (run_prepare_args σ bargs cache res resume).1 r = storeRead σ r := by
  have hne : r ≠ σ.length := by omega
  cases resume with
  | false =>
    simp only [run_prepare_args]
    rw [storeRead_setKey_ne _ _ _ _ _ hne, storeRead_append_left _ _ _ h]
  | true =>
    simp only [run_prepare_args]
    rcases hmd : res.max_date with _ | t <;> rcases hoff : res.offset with _ | o
    · rw [storeRead_setKey_ne _ _ _ _ _ hne, storeRead_append_left _ _ _ h]
    · by_cases ho : o ≠ 0
      · simp only [if_pos ho]
        rw [storeRead_setKey_ne _ _ _ _ _ hne, storeRead_setKey_ne _ _ _ _ _ hne,
          storeRead_append_left _ _ _ h]
      · simp only [if_neg ho]
        rw [storeRead_setKey_ne _ _ _ _ _ hne, storeRead_append_left _ _ _ h]
    · by_cases ht : t ≠ 0
      · simp only [if_pos ht]
        rw [storeRead_setKey_ne _ _ _ _ _ hne, storeRead_setKey_ne _ _ _ _ _ hne,
          storeRead_append_left _ _ _ h]
      · simp only [if_neg ht]
        rw [storeRead_setKey_ne _ _ _ _ _ hne, storeRead_append_left _ _ _ h]
    · by_cases ht : t ≠ 0 <;> by_cases ho : o ≠ 0
      · simp only [if_pos ht, if_pos ho]
        rw [storeRead_setKey_ne _ _ _ _ _ hne, storeRead_setKey_ne _ _ _ _ _ hne,
          storeRead_setKey_ne _ _ _ _ _ hne, storeRead_append_left _ _ _ h]
      · simp only [if_pos ht, if_neg ho]
        rw [storeRead_setKey_ne _ _ _ _ _ hne, storeRead_setKey_ne _ _ _ _ _ hne,
          storeRead_append_left _ _ _ h]
      · simp only [if_neg ht, if_pos ho]
        rw [storeRead_setKey_ne _ _ _ _ _ hne, storeRead_setKey_ne _ _ _ _ _ hne,
          storeRead_append_left _ _ _ h]
      · simp only [if_neg ht, if_neg ho]
        rw [storeRead_setKey_ne _ _ _ _ _ hne, storeRead_append_left _ _ _ h]

lemma mergedArgs_lookup_from_date (a : Args) (cache : Option Unit)
    (res : JobResult) (t : Int) (hmd : res.max_date = some t) (ht : t ≠ 0) :
    argsLookup (mergedArgs a cache res true) "from_date" = some (Value.date t) := by
  simp only [mergedArgs, hmd, if_pos ht]
  rcases hoff : res.offset with _ | o
  · exact argsLookup_set_self _ _ _
  · by_cases ho : o ≠ 0
    · simp only [if_pos ho]
      rw [argsLookup_set_ne _ _ _ _ (by decide)]
      exact argsLookup_set_self _ _ _
    · simp only [if_neg ho]
      exact argsLookup_set_self _ _ _

lemma mergedArgs_lookup_offset (a : Args) (cache : Option Unit)
    (res : JobResult) (o : Int) (hoff : res.offset = some o) (ho : o ≠ 0) :
    argsLookup (mergedArgs a cache res true) "offset" = some (Value.int o) := by
  simp only [mergedArgs, hoff, if_pos ho]
  exact argsLookup_set_self _ _ _

lemma processItem_nresumed (r : JobResult) (it : Item) :
    (processItem r it).nresumed = r.nresumed := rfl

lemma foldl_processItem_nresumed (items : List Item) :
    ∀ r : JobResult, (items.foldl processItem r).nresumed = r.nresumed := by
  induction items with
  | nil => intro r; rfl
  | cons it rest ih =>
    intro r
    simpa [processItem_nresumed] using ih (processItem r it)

lemma run_prepare_args_nresumed_resume (σ : Store) (bargs : Nat)
    (cache : Option Unit) (res : JobResult) :
    ((run_prepare_args σ bargs cache res true).2.2).nresumed = res.nresumed + 1 := by
  simp [run_prepare_args]

/-- C3 counterexample: resuming with a Progress Record whose recorded
`max_timestamp` and `offset` are both `0`, the merged argument bag
contains neither a `from_date` nor an `offset` entry, because
`if self.result.max_date:` and `if self.result.offset:` are falsy at
`0`; the claim's "including zero" is false on the code. -/
theorem run_resume_injection_counterexample :
    argsLookup
        (storeRead (PercevalJob.run "0.1.0" [[]] 0 none resZero true false [] none).store
          (PercevalJob.run "0.1.0" [[]] 0 none resZero true false [] none).argsRef)
        "from_date" = none
      ∧ argsLookup
        (storeRead (PercevalJob.run "0.1.0" [[]] 0 none resZero true false [] none).store
          (PercevalJob.run "0.1.0" [[]] 0 none resZero true false [] none).argsRef)
        "offset" = none
      ∧ resZero.max_date = some 0 ∧ resZero.offset = some 0 := by
  refine ⟨by decide, by decide, by decide, by decide⟩

/-- C3 (amended): on a `resume=true` run, when the current Progress
Record has a non-zero `max_timestamp` `T` the merged argument bag
contains `from_date` derived from `T`; when it has a non-zero `offset`
`K` the bag contains the starting offset `K`; and `resume_count` is
incremented by one.  (When the recorded value is `0` — or `None` — the
corresponding entry is not injected, since the code tests Python
truthiness.) -/
theorem run_resume_injection (version : String) (σ : Store) (bargs : Nat)
    (cache : Option Unit) (res : JobResult) (ffc : Bool)
    (items : List Item) (err : Option Exc) :
    (∀ t, res.max_date = some t → t ≠ 0 →
        argsLookup
          (storeRead (PercevalJob.run version σ bargs cache res true ffc items err).store
            (PercevalJob.run version σ bargs cache res true ffc items err).argsRef)
          "from_date" = some (Value.date t))
      ∧ (∀ o, res.offset = some o → o ≠ 0 →
        argsLookup
          (storeRead (PercevalJob.run version σ bargs cache res true ffc items err).store
            (PercevalJob.run version σ bargs cache res true ffc items err).argsRef)
          "offset" = some (Value.int o))
      ∧ (PercevalJob.run version σ bargs cache res true ffc items
          err).result.nresumed = res.nresumed + 1 := by
  have hread : storeRead (PercevalJob.run version σ bargs cache res true ffc items err).store
      (PercevalJob.run version σ bargs cache res true ffc items err).argsRef
      = mergedArgs (storeRead σ bargs) cache res true := by
    simp only [PercevalJob.run]
    exact run_prepare_args_read σ bargs cache res true
  refine ⟨?_, ?_, ?_⟩
  · intro t hmd ht
    rw [hread]
    exact mergedArgs_lookup_from_date _ cache res t hmd ht
  · intro o hoff ho
    rw [hread]
    exact mergedArgs_lookup_offset _ cache res o hoff ho
  · show ((metadata version res.job_id items).foldl processItem
      (run_prepare_args σ bargs cache res true).2.2).nresumed = res.nresumed + 1
    rw [foldl_processItem_nresumed, run_prepare_args_nresumed_resume]

/-- C3 witness: resuming from a record with `max_timestamp = 5` and
`offset = 7` injects `from_date` for `5` and starting offset `7`, and
bumps `resume_count` from `0` to `1`. -/
theorem run_resume_injection_witness :
    argsLookup
        (storeRead (PercevalJob.run "0.1.0" [[]] 0 none resFive true false [] none).store
          (PercevalJob.run "0.1.0" [[]] 0 none resFive true false [] none).argsRef)
        "from_date" = some (Value.date 5)
      ∧ argsLookup
        (storeRead (PercevalJob.run "0.1.0" [[]] 0 none resFive true false [] none).store
          (PercevalJob.run "0.1.0" [[]] 0 none resFive true false [] none).argsRef)
        "offset" = some (Value.int 7)
      ∧ (PercevalJob.run "0.1.0" [[]] 0 none resFive true false []
          none).result.nresumed = 1 := by
  obtain ⟨h1, h2, h3⟩ :=
    run_resume_injection "0.1.0" [[]] 0 none resFive false [] none
  exact ⟨h1 5 rfl (by decide), h2 7 rfl (by decide), h3⟩

/-- C9: `PercevalJob.run` never mutates the caller's `backend_args`
dict: whether the run returns or raises, the bag at the caller's
reference is unchanged, because the merged bag (carrying the injected
`cache`, `from_date` and `offset` entries) lives at a freshly allocated
reference produced by `backend_args.copy()`. -/
theorem run_caller_args_unchanged (version : String) (σ : Store) (bargs : Nat)
    (cache : Option Unit) (res : JobResult) (resume ffc : Bool)
    (items : List Item) (err : Option Exc) (h : bargs < σ.length) :
    storeRead (PercevalJob.run version σ bargs cache res resume ffc items
        err).store bargs = storeRead σ bargs := by
  simp only [PercevalJob.run]
  exact run_prepare_args_store_frame σ bargs cache res resume bargs h

/-- C9 witness: a resuming run over a one-dict store leaves the caller's
bag at reference `0` exactly as it was. -/
theorem run_caller_args_unchanged_witness :
    (0 : Nat) < ([[("x", Value.str "y")]] : Store).length
      ∧ storeRead (PercevalJob.run "0.1.0" [[("x", Value.str "y")]] 0 none
          resFive true false [] none).store 0
        = storeRead [[("x", Value.str "y")]] 0 :=
  ⟨by decide,
    run_caller_args_unchanged "0.1.0" [[("x", Value.str "y")]] 0 none
      resFive true false [] none (by decide)⟩

/-- C4: when the backend does not support caching and a cache path or
the fetch-from-cache flag was requested, `execute_perceval_job` raises
the cache-unsupported `AttributeError` immediately and `run` is never
called. -/
theorem execute_cache_precondition (cfg : OrchCfg)
    (h1 : cfg.has_caching = false)
    (h2 : truthyOptStr cfg.cache_path = true ∨ cfg.fetch_from_cache = true) :
    execute_perceval_job cfg
      = { runCalls := 0,
          result := .error
            (Exc.attrError "cache attributes set but cache is not supported") } := by
  simp only [execute_perceval_job, if_pos (And.intro h1 h2)]

/-- C4 witness: a non-caching backend with `fetch_from_cache=True`
aborts with the cache error before any run. -/
theorem execute_cache_precondition_witness :
    c4cfg.has_caching = false
      ∧ (truthyOptStr c4cfg.cache_path = true ∨ c4cfg.fetch_from_cache = true)
      ∧ execute_perceval_job c4cfg
        = { runCalls := 0,
            result := .error
              (Exc.attrError "cache attributes set but cache is not supported") } :=
  ⟨rfl, Or.inr rfl, execute_cache_precondition c4cfg rfl (Or.inr rfl)⟩

/-- C6: an attempt that raises an `AttributeError` (a parameter-binding
failure, the non-retryable class) makes the retry loop re-raise it at
once: whatever the attempt index, the remaining retry budget and the
backend's resume support, the loop terminates right after that `run`
call with that error. -/
theorem attr_error_propagates (cfg : OrchCfg) (σ : Store) (k : Nat)
    (cacheOn : Bool) (res : JobResult) (resume : Bool) (e : Exc)
    (hp : (cfg.production k).2 = some e) (ha : e.isAttr = true) :
    execLoop cfg σ k cacheOn res resume
      = { runCalls := k + 1, result := .error e } := by
  unfold execLoop
  simp [hp, ha]

/-- C6 witness: an `AttributeError` on the third attempt (index 2) ends
the job at exactly three run calls with that error. -/
theorem attr_error_propagates_witness :
    (c6cfg.production 2).2 = some (Exc.attrError "missing arg")
      ∧ (Exc.attrError "missing arg").isAttr = true
      ∧ execLoop c6cfg [[]] 2 false (freshResult "job1" "task1" "git") true
        = { runCalls := 3, result := .error (Exc.attrError "missing arg") } :=
  ⟨rfl, rfl,
    attr_error_propagates c6cfg [[]] 2 false (freshResult "job1" "task1" "git")
      true (Exc.attrError "missing arg") rfl rfl⟩

/-- C7: a backend that does not support resuming and whose first run
raises a transient (non-`AttributeError`) error causes exactly one `run`
call before that error propagates, for any `max_retries` value (the
configuration's retry budget is arbitrary here). -/
theorem no_resume_single_run (cfg : OrchCfg) (e : Exc)
    (hres : cfg.has_resuming = false)
    (hp : (cfg.production 0).2 = some e) (ha : e.isAttr = false)
    (hrec : cfg.recover_err = none)
    (hpre : ¬(cfg.has_caching = false ∧
      (truthyOptStr cfg.cache_path = true ∨ cfg.fetch_from_cache = true))) :
    execute_perceval_job cfg = { runCalls := 1, result := .error e } := by
  unfold execute_perceval_job
  rw [if_neg hpre]
  unfold execLoop
  simp only [hp, ha, hrec]
  simp [dif_pos (Or.inl hres)]

/-- C7 witness: a non-resuming backend with a 100-attempt budget still
runs exactly once and re-raises the transient error. -/
theorem no_resume_single_run_witness :
    c7cfg.has_resuming = false
      ∧ (c7cfg.production 0).2 = some (Exc.exc "boom")
      ∧ execute_perceval_job c7cfg
        = { runCalls := 1, result := .error (Exc.exc "boom") } :=
  ⟨rfl, rfl,
    no_resume_single_run c7cfg (Exc.exc "boom") rfl rfl rfl rfl (by decide)⟩

/-- C10: whenever `max_retries ≤ 1` (including `0` and negative
values), the orchestrator still performs exactly one `run` call: the
first call is made before the budget is consulted, and the budget check
`failures >= max_retries` only runs after a failure. -/
theorem first_run_unconditional (cfg : OrchCfg)
    (hm : cfg.max_retries ≤ 1)
    (hpre : ¬(cfg.has_caching = false ∧
      (truthyOptStr cfg.cache_path = true ∨ cfg.fetch_from_cache = true))) :
    (execute_perceval_job cfg).runCalls = 1 := by
  unfold execute_perceval_job
  rw [if_neg hpre]
  unfold execLoop
  cases hp : (cfg.production 0).2 with
  | none => simp [hp]
  | some e =>
    simp only [hp]
    split
    · rfl
    · split
      · rfl
      · split
        · rfl
        · rename_i hor
          exact absurd (Or.inr (by omega)) hor

/-- C10 witness: a zero retry budget still gets one run call (here a
successful run). -/
theorem first_run_unconditional_witness :
    c10cfg.max_retries ≤ 1 ∧ (execute_perceval_job c10cfg).runCalls = 1 :=
  ⟨by decide, first_run_unconditional c10cfg (by decide) (by decide)⟩

/-- C5 counterexample: with a writable cache in use, a first attempt
failing with the transient error `boom` and `cache.recover()` raising
`recover failed`, the orchestrator propagates the recovery error, not
the triggering error: the claim that the original error still propagates
is false on the code (`recover_cache()` is called inside the `except`
block with no handler around it). -/
theorem recover_error_replaces_counterexample :
    execute_perceval_job c5cfg
        = { runCalls := 1, result := .error (Exc.exc "recover failed") }
      ∧ (c5cfg.production 0).2 = some (Exc.exc "boom")
      ∧ Exc.exc "recover failed" ≠ Exc.exc "boom" := by
  refine ⟨?_, rfl, by decide⟩
  unfold execute_perceval_job
  rw [if_neg (by decide)]
  unfold execLoop
  simp [c5cfg, baseCfg, truthyOptStr, Exc.isAttr]

/-- C5 (amended): when the first attempt fails with a transient error
while a writable cache is in use and the recovery operation itself
fails, the error from recovery replaces the triggering run error: the
recovery error is what propagates, and the job aborts after that single
attempt. -/
theorem recover_error_replaces (cfg : OrchCfg) (e r : Exc)
    (hcp : truthyOptStr cfg.cache_path = true)
    (hffc : cfg.fetch_from_cache = false)
    (hcaching : cfg.has_caching = true)
    (hp : (cfg.production 0).2 = some e) (ha : e.isAttr = false)
    (hrec : cfg.recover_err = some r) :
    execute_perceval_job cfg = { runCalls := 1, result := .error r } := by
  unfold execute_perceval_job
  rw [if_neg (by simp [hcaching])]
  unfold execLoop
  simp [hp, ha, hcp, hffc, hrec]

/-- C5 witness: the amended statement at a concrete configuration with
recovery failing on the first transient failure. -/
theorem recover_error_replaces_witness :
    truthyOptStr c5cfg.cache_path = true
      ∧ c5cfg.recover_err = some (Exc.exc "recover failed")
      ∧ execute_perceval_job c5cfg
        = { runCalls := 1, result := .error (Exc.exc "recover failed") } :=
  ⟨rfl, rfl,
    recover_error_replaces c5cfg (Exc.exc "boom") (Exc.exc "recover failed")
      rfl rfl rfl rfl rfl rfl⟩

lemma execLoop_always_fail (cfg : OrchCfg)
    (hres : cfg.has_resuming = true)
    (hfail : ∀ j : Nat, ∃ msg, (cfg.production j).2 = some (Exc.exc msg))
    (hrec : cfg.recover_err = none) :
    ∀ (n k : Nat) (σ : Store) (cacheOn : Bool) (res : JobResult)
      (resume : Bool) (e : Exc),
      (cfg.max_retries - (k : Int)).toNat = n → (k : Int) < cfg.max_retries →
      (cfg.production (cfg.max_retries.toNat - 1)).2 = some e →
      execLoop cfg σ k cacheOn res resume
        = { runCalls := cfg.max_retries.toNat, result := .error e } := by
  intro n
  induction n with
  | zero =>
    intro k σ cacheOn res resume e h1 h2 he
    exfalso
    omega
  | succ n ih =>
    intro k σ cacheOn res resume e h1 h2 he
    obtain ⟨msg, hp⟩ := hfail k
    by_cases habort : cfg.max_retries ≤ (k : Int) + 1
    · have hk : cfg.max_retries.toNat - 1 = k := by omega
      rw [hk, hp] at he
      obtain rfl : Exc.exc msg = e := Option.some.inj he
      have hm : cfg.max_retries.toNat = k + 1 := by omega
      unfold execLoop
      simp only [hp, hrec]
      rw [hm]
      simp [Exc.isAttr, dif_pos (Or.inr habort)]
    · push_neg at habort
      unfold execLoop
      simp only [hp, hrec, Exc.isAttr]
      rw [dif_neg ?hcond]
      case hcond =>
        intro hor
        rcases hor with h | h
        · rw [hres] at h
          exact Bool.noConfusion h
        · omega
      simp only [Option.isSome_none, Bool.and_false, Bool.false_eq_true,
        if_false]
      exact ih (k + 1) _ _ _ _ e (by omega) (by omega) he

/-- C1: with a positive retry budget, a backend that supports resuming
and fails every attempt with a transient error (and whose cache
recovery, when any, does not itself fail) causes exactly `max_retries`
calls to `run`, after which the error that triggered the last failure is
raised. -/
theorem execute_retry_bound (cfg : OrchCfg)
    (hm : 1 ≤ cfg.max_retries)
    (hres : cfg.has_resuming = true)
    (hfail : ∀ j : Nat, ∃ msg, (cfg.production j).2 = some (Exc.exc msg))
    (hrec : cfg.recover_err = none)
    (hpre : ¬(cfg.has_caching = false ∧
      (truthyOptStr cfg.cache_path = true ∨ cfg.fetch_from_cache = true))) :
    ∃ e, (cfg.production (cfg.max_retries.toNat - 1)).2 = some e
      ∧ execute_perceval_job cfg
        = { runCalls := cfg.max_retries.toNat, result := .error e } := by
  obtain ⟨msg, hN⟩ := hfail (cfg.max_retries.toNat - 1)
  refine ⟨Exc.exc msg, hN, ?_⟩
  unfold execute_perceval_job
  rw [if_neg hpre]
  exact execLoop_always_fail cfg hres hfail hrec _ 0 _ _ _ _ _ rfl
    (by omega) hN

/-- C1 witness: with `max_retries = 3` and every attempt failing with
the transient error `boom`, the orchestrator makes exactly 3 run calls
and raises the last attempt's error. -/
theorem execute_retry_bound_witness :
    (1 : Int) ≤ baseCfg.max_retries
      ∧ ∃ e, (baseCfg.production (baseCfg.max_retries.toNat - 1)).2 = some e
        ∧ execute_perceval_job baseCfg
          = { runCalls := baseCfg.max_retries.toNat, result := .error e } :=
  ⟨by decide,
    execute_retry_bound baseCfg (by decide) rfl (fun _ => ⟨"boom", rfl⟩) rfl
      (by decide)⟩

end Arthur
